import Mathlib

/-!
Verification of the meshlib-practise-react mesh-processing engine and its
worker/client plumbing.

The TypeScript clients, workers and pages under `src/` are embedded directly.
The geometry engine itself ships as a WASM binary (`meshlib_smooth_stl`,
`meshlib_detect_self_intersections_stl`, …) whose source is not part of the
repository; the definitions below that stand for it are marked
`Modelled from the spec:` and follow the specification's description of the
corresponding component (§4 of the spec).

All coordinates are exact rationals, standing in for the engine's
double-precision floats.
-/

namespace Meshlib

/-- A 3-D point/vector with exact rational coordinates (spec §3, Vertex
positions are `(x, y, z)` in double precision). -/
structure Vec3 where
  x : ℚ
  y : ℚ
  z : ℚ
deriving DecidableEq, Repr

def vecZero : Vec3 := ⟨0, 0, 0⟩

def Vec3.add (u v : Vec3) : Vec3 := ⟨u.x + v.x, u.y + v.y, u.z + v.z⟩

def Vec3.sub (u v : Vec3) : Vec3 := ⟨u.x - v.x, u.y - v.y, u.z - v.z⟩

def Vec3.smul (c : ℚ) (v : Vec3) : Vec3 := ⟨c * v.x, c * v.y, c * v.z⟩

def Vec3.dot (u v : Vec3) : ℚ := u.x * v.x + u.y * v.y + u.z * v.z

def Vec3.cross (u v : Vec3) : Vec3 :=
  ⟨u.y * v.z - u.z * v.y, u.z * v.x - u.x * v.z, u.x * v.y - u.y * v.x⟩

def Vec3.normSq (v : Vec3) : ℚ := v.dot v

def Vec3.distSq (u v : Vec3) : ℚ := (u.sub v).normSq

/-- A triangle face: exactly three vertex indices (spec §3, Triangle). -/
structure Face where
  a : Nat
  b : Nat
  c : Nat
deriving DecidableEq, Repr

/-- The indexed triangle mesh: vertex positions plus triangle vertex-index
triples (spec §3, Mesh Store). -/
structure Mesh where
  vertices : List Vec3
  faces : List Face
deriving DecidableEq, Repr

def Face.hasVertex (f : Face) (i : Nat) : Bool :=
  i == f.a || i == f.b || i == f.c

def Face.otherVertices (f : Face) (i : Nat) : List Nat :=
  ([f.a, f.b, f.c]).filter (fun j => j ≠ i)

def Mesh.pos (m : Mesh) (i : Nat) : Vec3 := m.vertices.getD i vecZero

/-- One-ring neighbourhood of vertex `i`: all vertices sharing a face with it. -/
def Mesh.neighborsOf (m : Mesh) (i : Nat) : List Nat :=
  ((m.faces.filter (fun f => f.hasVertex i)).flatMap
    (fun f => f.otherVertices i)).dedup

/-- Number of faces incident to the undirected edge `(i, j)`. -/
def Mesh.edgeFaceCount (m : Mesh) (i j : Nat) : Nat :=
  (m.faces.filter (fun f => f.hasVertex i && f.hasVertex j)).length

/-- A vertex is a border vertex when some incident edge has exactly one
incident face (spec §3: border half-edge = no opposite). -/
def Mesh.isBorderVertex (m : Mesh) (i : Nat) : Bool :=
  (m.neighborsOf i).any (fun j => m.edgeFaceCount i j == 1)

def vsum (ps : List Vec3) : Vec3 := ps.foldr Vec3.add vecZero

def centroidOf (ps : List Vec3) : Vec3 :=
  Vec3.smul (1 / (ps.length : ℚ)) (vsum ps)

/-- Unweighted average of the one-ring neighbour positions of vertex `i`. -/
def Mesh.oneRingAverage (m : Mesh) (i : Nat) : Vec3 :=
  centroidOf ((m.neighborsOf i).map m.pos)

def Mesh.faceCentroid (m : Mesh) (f : Face) : Vec3 :=
  centroidOf [m.pos f.a, m.pos f.b, m.pos f.c]

/-- Face normal via the right-hand rule on the winding order (spec §3). -/
def Mesh.faceNormal (m : Mesh) (f : Face) : Vec3 :=
  ((m.pos f.b).sub (m.pos f.a)).cross ((m.pos f.c).sub (m.pos f.a))

/-- Unnormalized vertex normal: sum of incident face normals. -/
def Mesh.vertexNormal (m : Mesh) (i : Nat) : Vec3 :=
  vsum ((m.faces.filter (fun f => f.hasVertex i)).map m.faceNormal)

def Face.verts (f : Face) : List Nat := [f.a, f.b, f.c]

def defaultFace : Face := ⟨0, 0, 0⟩

/-- Two faces share an (undirected) edge when they have at least two common
vertices. -/
def sharesEdge (f g : Face) : Bool :=
  ((f.verts).filter (fun i => g.hasVertex i)).length ≥ 2

/-- Indices of the faces sharing an edge with face `fi`. -/
def Mesh.faceNeighbors (m : Mesh) (fi : Nat) : List Nat :=
  match m.faces.get? fi with
  | none => []
  | some f =>
      (List.range m.faces.length).filter
        (fun j => (j != fi) && sharesEdge f (m.faces.getD j defaultFace))

/-! ## Smoothing engine (spec §4.6) -/

/-- The four smoothing variants (smoothingClient.ts `SmoothingMethod`). -/
inductive SmoothingMethod where
  | laplacian
  | taubin
  | laplacianHC
  | tangentialRelaxation
deriving DecidableEq, BEq, Repr

/-- Modelled from the spec: one diffusion pass with factor `t` — every
interior vertex moves by `t` times the vector to the unweighted average of
its one-ring neighbours; border vertices are not moved (spec §4.6, the
engine source is the missing WASM smoothing core). -/
def diffuseStep (t : ℚ) (m : Mesh) : Mesh :=
  { m with
    vertices := m.vertices.mapIdx (fun i p =>
      if m.isBorderVertex i || (m.neighborsOf i).isEmpty then p
      else p.add (Vec3.smul t ((m.oneRingAverage i).sub p))) }

/-- Modelled from the spec: one Laplacian-HC iteration — a Laplacian step
followed by a correction pulling each vertex partway back toward a blend of
its original (`origPos`) and pre-smoothing positions, governed by α and β
(spec §4.6; the engine source is the missing WASM smoothing core). -/
def hcStep (origPos : Nat → Vec3) (alpha beta : ℚ) (m : Mesh) : Mesh :=
  { m with
    vertices := m.vertices.mapIdx (fun i p =>
      if m.isBorderVertex i || (m.neighborsOf i).isEmpty then p
      else
        let q := m.oneRingAverage i
        let blend := (Vec3.smul alpha (origPos i)).add (Vec3.smul (1 - alpha) p)
        q.sub (Vec3.smul beta (q.sub blend))) }

/-- Modelled from the spec: one tangential-relaxation iteration — the
Laplacian displacement projected onto the plane orthogonal to the vertex
normal (spec §4.6; the engine source is the missing WASM smoothing core). -/
def tangentialStep (m : Mesh) : Mesh :=
  { m with
    vertices := m.vertices.mapIdx (fun i p =>
      if m.isBorderVertex i || (m.neighborsOf i).isEmpty then p
      else
        let d := (m.oneRingAverage i).sub p
        let n := m.vertexNormal i
        if n.normSq = 0 then p
        else p.add (d.sub (Vec3.smul (d.dot n / n.normSq) n))) }

/-- Modelled from the spec: a single smoothing iteration, dispatching on the
method (spec §4.6 and §9 "dynamic dispatch over smoothing method"); Taubin is
the two-pass λ-shrink / μ-inflate variant. -/
def smoothingStep (method : SmoothingMethod) (origPos : Nat → Vec3)
    (lambda mu alpha beta : ℚ) (m : Mesh) : Mesh :=
  match method with
  | .laplacian => diffuseStep 1 m
  | .taubin => diffuseStep (-mu) (diffuseStep lambda m)
  | .laplacianHC => hcStep origPos alpha beta m
  | .tangentialRelaxation => tangentialStep m

def iterateSteps (f : Mesh → Mesh) : Nat → Mesh → Mesh
  | 0, m => m
  | n + 1, m => iterateSteps f n (f m)

/-- Engine error taxonomy (spec §7). -/
inductive EngineError where
  | invalidParameter
  | insufficientLandmarks
  | intersectionRepairIncomplete
deriving DecidableEq, Repr

/-- Modelled from the spec: Taubin parameter precondition — λ∈(0,1),
μ∈(0,1) and μ>λ strictly (spec §4.6). -/
def taubinParamsValid (lambda mu : ℚ) : Bool :=
  decide (0 < lambda) && decide (lambda < 1) &&
  decide (0 < mu) && decide (mu < 1) && decide (lambda < mu)

/-- Result reported by a successful smoothing call (smoothingClient.ts
`SmoothResult`: output mesh plus face and vertex counts). -/
structure SmoothResult where
  mesh : Mesh
  faces : Nat
  vertices : Nat
deriving DecidableEq, Repr

/-- Modelled from the spec: the WASM smoothing entry point
(`meshlib_smooth_stl`, missing from src/) — validates Taubin parameters
(failing fast with `InvalidParameterError` before any mutation, spec §7),
then runs the chosen filter for exactly `iterations` iterations (spec §4.6:
the iteration count is the sole stopping criterion) and reports the output
mesh with its face and vertex counts. -/
def smoothEngine (method : SmoothingMethod) (iterations : Nat)
    (lambda mu alpha beta : ℚ) (m : Mesh) : Except EngineError SmoothResult :=
  if method == .taubin && !taubinParamsValid lambda mu then
    .error .invalidParameter
  else
    let mOut := iterateSteps (smoothingStep method m.pos lambda mu alpha beta) iterations m
    .ok ⟨mOut, mOut.faces.length, mOut.vertices.length⟩

/-- The λ value actually sent to the worker: `opts.lambda ?? 0.5`
(smoothingClient.ts, `SmoothingClient.smooth`). -/
def requestLambda (optLambda : Option ℚ) : ℚ := optLambda.getD (1 / 2)

/-- The μ value actually sent to the worker: `opts.mu ?? 0.53`
(smoothingClient.ts, `SmoothingClient.smooth`). -/
def requestMu (optMu : Option ℚ) : ℚ := optMu.getD (53 / 100)

/-! ## Annotation engine (spec §4.8) -/

/-- Breadth-first region growth over face adjacency: `keepFace` gates every
face added beyond the start set; fuel bounds the number of expansion
rounds. -/
def bfsGrow (m : Mesh) (keepFace : Nat → Bool) :
    Nat → List Nat → List Nat → List Nat
  | 0, _, visited => visited
  | fuel + 1, frontier, visited =>
      let next :=
        ((frontier.flatMap (fun fi => m.faceNeighbors fi)).filter
          (fun j => keepFace j && !(visited.contains j))).dedup
      match next with
      | [] => visited
      | _ => bfsGrow m keepFace fuel next (visited ++ next)

/-- Radius condition of `selectPatch`: the face's centroid lies within
`radius` Euclidean distance of `center` (spec §4.8), compared on squares to
stay in exact arithmetic. -/
def withinRadius (m : Mesh) (center : Vec3) (radius : ℚ) (fi : Nat) : Bool :=
  decide (Vec3.distSq (m.faceCentroid (m.faces.getD fi defaultFace)) center ≤
    radius * radius)

/-- Modelled from the spec: the admission test of `selectPatch` (missing
WASM annotations core) — a neighbour face is admitted iff it passes the
radius condition and, unless `maxNormalAngleDeg < 0` (which skips the check
entirely), the normal-angle condition; `angleOk` abstracts the
floating-point comparison of the face normal's angle to the seed normal
against `maxNormalAngleDeg` performed by the missing core. -/
def admitsFace (radiusOk angleOk : Nat → Bool) (maxNormalAngleDeg : ℚ)
    (fi : Nat) : Bool :=
  radiusOk fi && (decide (maxNormalAngleDeg < 0) || angleOk fi)

/-- Modelled from the spec: `selectPatch` region growth (spec §4.8; missing
WASM annotations core) — breadth-first growth from the seed face across
shared edges, admitting faces via `admitsFace`. -/
def selectPatchFaces (m : Mesh) (angleOk : Nat → Bool) (seedFaceIndex : Nat)
    (center : Vec3) (radius : ℚ) (maxNormalAngleDeg : ℚ) : List Nat :=
  bfsGrow m (admitsFace (withinRadius m center radius) angleOk maxNormalAngleDeg)
    m.faces.length [seedFaceIndex] [seedFaceIndex]

/-- The `maxNormalAngleDeg` the page sends: `useAngleLimit ? maxAngle : -1`
(AnnotationsPage.tsx, `handleFaceClick`; -1 disables the normal-angle
check). -/
def clientMaxNormalAngleDeg (useAngleLimit : Bool) (maxAngle : ℚ) : ℚ :=
  if useAngleLimit then maxAngle else -1

/-- Patch payload of the annotations engine (AnnotationsClient
`PatchFromLandmarksResult`: face indices plus their count). -/
structure PatchResult where
  faceIndices : List Nat
  numFaces : Nat
deriving DecidableEq, Repr

/-- Modelled from the spec: flood fill of the region enclosed by the closed
landmark contour (spec §4.8, missing WASM annotations core) — grown the
same way `selectPatch` grows, but bounded by the explicit contour; the
exact geometric enclosure test lives in the missing core and is modelled as
growth from the landmark faces bounded by the contour's circumradius about
its centroid. -/
def floodFillContour (m : Mesh) (landmarkFaces : List Nat)
    (positions : List Vec3) : List Nat :=
  let c := centroidOf positions
  let r2 := (positions.map (fun p => Vec3.distSq p c)).foldr max 0
  bfsGrow m
    (fun fi =>
      decide (Vec3.distSq (m.faceCentroid (m.faces.getD fi defaultFace)) c ≤ r2))
    m.faces.length landmarkFaces.dedup landmarkFaces.dedup

/-- Modelled from the spec: `patchFromLandmarks` (spec §4.8, missing WASM
annotations core) — requires at least 3 landmarks and fails with
`InsufficientLandmarksError` otherwise, producing no patch; with ≥ 3
landmarks the ordered landmark sequence is treated as a closed contour and
the enclosed faces are flood-filled. -/
def patchFromLandmarks (m : Mesh) (landmarkFaces : List Nat)
    (positions : List Vec3) : Except EngineError PatchResult :=
  if landmarkFaces.length < 3 then .error .insufficientLandmarks
  else
    .ok ⟨floodFillContour m landmarkFaces positions,
      (floodFillContour m landmarkFaces positions).length⟩

/-- Outcome of the page-level `handleCreatePatch` guard. -/
inductive CreatePatchAction where
  | showError (msg : String)
  | callPatchFromLandmarks
deriving DecidableEq, Repr

/-- The error text `handleCreatePatch` shows for too few landmarks
(AnnotationsPage.tsx). -/
def tooFewLandmarksText : String :=
  "Place at least 3 landmarks to create a patch."

/-- The guard in `handleCreatePatch` (AnnotationsPage.tsx): with fewer than
3 landmarks it shows an error and never calls the client. -/
def handleCreatePatchGuard (numLandmarks : Nat) : CreatePatchAction :=
  if numLandmarks < 3 then .showError tooFewLandmarksText
  else .callPatchFromLandmarks

/-! ## Self-intersection engine (spec §4.3) -/

/-- Signed volume of the tetrahedron `(a, b, c, d)` — the exact orientation
primitive behind the triangle-triangle crossing test. -/
def orient3d (a b c d : Vec3) : ℚ :=
  ((b.sub a).cross (c.sub a)).dot (d.sub a)

/-- A triangle by its three corner positions. -/
structure Tri where
  p : Vec3
  q : Vec3
  r : Vec3
deriving DecidableEq, Repr

/-- Modelled from the spec: exact segment–triangle crossing test (spec §4.3;
missing WASM core) — the segment `(a, b)` pierces the open triangle
`(u, v, w)`.  The test is strict, so triangles that merely touch (shared
vertices or edges of adjacent faces, and coplanar overlap, the spec's
documented gap) never count as crossing. -/
def segCrossesTri (a b u v w : Vec3) : Bool :=
  let sA := orient3d u v w a
  let sB := orient3d u v w b
  if decide (sA * sB < 0) then
    let t1 := orient3d a b u v
    let t2 := orient3d a b v w
    let t3 := orient3d a b w u
    (decide (0 < t1) && decide (0 < t2) && decide (0 < t3)) ||
    (decide (t1 < 0) && decide (t2 < 0) && decide (t3 < 0))
  else false

def Tri.edgeList (t : Tri) : List (Vec3 × Vec3) := [(t.p, t.q), (t.q, t.r), (t.r, t.p)]

/-- Modelled from the spec: exact triangle-triangle crossing (spec §4.3;
missing WASM core) — some edge of one triangle pierces the other. -/
def triCrosses (t1 t2 : Tri) : Bool :=
  (t1.edgeList).any (fun e => segCrossesTri e.1 e.2 t2.p t2.q t2.r) ||
  (t2.edgeList).any (fun e => segCrossesTri e.1 e.2 t1.p t1.q t1.r)

/-- Point where the segment `(a, b)` crosses the plane of `(u, v, w)`
(exact, defined when the plane orientations of `a` and `b` differ). -/
def edgePlanePoint (a b u v w : Vec3) : Vec3 :=
  let sA := orient3d u v w a
  let sB := orient3d u v w b
  a.add (Vec3.smul (sA / (sA - sB)) (b.sub a))

/-- All edge-through-triangle crossing points of a pair of triangles. -/
def crossingPoints (t1 t2 : Tri) : List Vec3 :=
  ((t1.edgeList).filter (fun e => segCrossesTri e.1 e.2 t2.p t2.q t2.r)).map
    (fun e => edgePlanePoint e.1 e.2 t2.p t2.q t2.r) ++
  ((t2.edgeList).filter (fun e => segCrossesTri e.1 e.2 t1.p t1.q t1.r)).map
    (fun e => edgePlanePoint e.1 e.2 t1.p t1.q t1.r)

/-- Modelled from the spec: the intersection line segment reported for one
intersecting pair — two 3-D endpoint positions, flattened to 6 coordinates
`[sx, sy, sz, ex, ey, ez]` (spec §4.3, selfIntersectionsClient.ts
`DetectResult.segments`). -/
def segmentOfPair (t1 t2 : Tri) : List ℚ :=
  match crossingPoints t1 t2 with
  | pt1 :: pt2 :: _ => [pt1.x, pt1.y, pt1.z, pt2.x, pt2.y, pt2.z]
  | [pt1] => [pt1.x, pt1.y, pt1.z, pt1.x, pt1.y, pt1.z]
  | [] => [0, 0, 0, 0, 0, 0]

def Mesh.triOf (m : Mesh) (f : Face) : Tri := ⟨m.pos f.a, m.pos f.b, m.pos f.c⟩

def Mesh.triAt (m : Mesh) (i : Nat) : Tri := m.triOf (m.faces.getD i defaultFace)

/-- All index pairs `(i, j)` with `i < j < n`. -/
def allPairs (n : Nat) : List (Nat × Nat) :=
  (List.range n).flatMap (fun j => (List.range j).map (fun i => (i, j)))

/-- Modelled from the spec: the set of intersecting face pairs found by
detect (spec §4.3; missing WASM core) — every unordered pair of faces whose
triangles cross. -/
def intersectingPairs (m : Mesh) : List (Nat × Nat) :=
  (allPairs m.faces.length).filter
    (fun pr => triCrosses (m.triAt pr.1) (m.triAt pr.2))

/-- Payload of a successful detect call (selfIntersectionsClient.ts
`DetectResult`): the pair count and the flat segment coordinate array. -/
structure DetectResult where
  count : Nat
  segments : List ℚ
deriving DecidableEq, Repr

/-- Modelled from the spec: self-intersection detection
(`meshlib_detect_self_intersections_stl`, missing from src/) — returns the
number of intersecting face pairs and, for each detected pair, its
intersection line segment as two endpoint positions, flattened (spec §4.3). -/
def detectSelfIntersections (m : Mesh) : DetectResult :=
  let ps := intersectingPairs m
  ⟨ps.length,
    (ps.map (fun pr => segmentOfPair (m.triAt pr.1) (m.triAt pr.2))).flatten⟩

/-- Undirected edge normal form. -/
def normEdge (i j : Nat) : Nat × Nat := if i ≤ j then (i, j) else (j, i)

def Mesh.allEdges (m : Mesh) : List (Nat × Nat) :=
  (m.faces.flatMap
    (fun f => [normEdge f.a f.b, normEdge f.b f.c, normEdge f.c f.a])).dedup

/-- Border edges: undirected edges with exactly one incident face (spec §3,
border half-edge). -/
def Mesh.borderEdgeList (m : Mesh) : List (Nat × Nat) :=
  m.allEdges.filter (fun e => m.edgeFaceCount e.1 e.2 == 1)

/-- First remaining border edge at vertex `v`, with its far endpoint. -/
def pickEdgeAt (v : Nat) (edges : List (Nat × Nat)) :
    Option ((Nat × Nat) × Nat) :=
  match edges.find? (fun e => e.1 == v || e.2 == v) with
  | none => none
  | some e => some (e, if e.1 == v then e.2 else e.1)

/-- Walk border edges from `current` until the loop closes back at `start`;
returns the loop's vertex sequence and the unused edges, or `none` when the
walk gets stuck (spec §4.2: boundary loops are grouped by following
next-border links). -/
def walkLoop (start : Nat) :
    Nat → Nat → List (Nat × Nat) → List Nat → Option (List Nat × List (Nat × Nat))
  | 0, _, _, _ => none
  | fuel + 1, current, edges, acc =>
      match pickEdgeAt current edges with
      | none => none
      | some (e, next) =>
          let rest := edges.erase e
          if next == start then some (acc.reverse, rest)
          else walkLoop start fuel next rest (next :: acc)

/-- Group border edges into closed loops (spec §4.2, `findHoles`); `none`
when some edge set cannot be chained into loops. -/
def chainLoops : Nat → List (Nat × Nat) → Option (List (List Nat))
  | _, [] => some []
  | 0, _ => none
  | fuel + 1, e :: rest =>
      match walkLoop e.1 (rest.length + 1) e.2 rest [e.2, e.1] with
      | none => none
      | some (loop, remaining) =>
          match chainLoops fuel remaining with
          | none => none
          | some loops => some (loop :: loops)

def fanFrom (v0 : Nat) (prev : Nat) : List Nat → List Face
  | [] => []
  | v :: rest => ⟨v0, prev, v⟩ :: fanFrom v0 v rest

/-- Triangulate one boundary loop without inserting vertices; `none` for a
degenerate loop of fewer than 3 vertices (spec §4.2 `DegenerateHoleError`). -/
def fanTriangles : List Nat → Option (List Face)
  | v0 :: v1 :: v2 :: rest => some (fanFrom v0 v1 (v2 :: rest))
  | _ => none

/-- Modelled from the spec: the Hole Engine pass used by repair (spec §4.2;
missing WASM core) — walks the border edges into closed loops and
triangulates each loop among its existing vertices (a fan in loop order
standing in for ear clipping, which likewise may insert 0 new vertices);
`none` when a loop cannot be built or triangulated. -/
def fillHoles (m : Mesh) : Option Mesh :=
  match chainLoops (m.borderEdgeList.length + 1) m.borderEdgeList with
  | none => none
  | some loops =>
      match loops.mapM fanTriangles with
      | none => none
      | some newFaces => some { m with faces := m.faces ++ newFaces.flatten }

/-- Faces flagged by detect: every face occurring in an intersecting pair. -/
def flaggedFaceIndices (m : Mesh) : List Nat :=
  ((intersectingPairs m).flatMap (fun pr => [pr.1, pr.2])).dedup

/-- Remove every flagged face (spec §4.3 repair step 1). -/
def removeFlagged (m : Mesh) : Mesh :=
  { m with
    faces :=
      (m.faces.enum.filter
        (fun pr => !(flaggedFaceIndices m).contains pr.1)).map (fun pr => pr.2) }

/-- Result of a successful repair (selfIntersectionsClient.ts
`RepairResult`): repaired mesh plus removed-face count. -/
structure RepairResult where
  mesh : Mesh
  removedFaces : Nat
deriving DecidableEq, Repr

def repairGo : Nat → Nat → Mesh → Except EngineError RepairResult
  | 0, _, _ => .error .intersectionRepairIncomplete
  | fuel + 1, removed, m =>
      if (intersectingPairs m).isEmpty then .ok ⟨m, removed⟩
      else
        let flagged := flaggedFaceIndices m
        match fillHoles (removeFlagged m) with
        | none => .error .intersectionRepairIncomplete
        | some m2 => repairGo fuel (removed + flagged.length) m2

/-- Modelled from the spec: self-intersection repair
(`meshlib_repair_self_intersections_stl`, missing from src/) — repeatedly
removes every face flagged as intersecting and closes the resulting holes
with the Hole Engine (spec §4.3) until no detectable intersection remains
(the §8 full-success guarantee), reporting the removed-face count; it fails
with `IntersectionRepairIncompleteError` when holes cannot all be filled or
the pass budget is exhausted, in which case no fully-repaired output is
reported. -/
def repairSelfIntersections (m : Mesh) : Except EngineError RepairResult :=
  repairGo (m.faces.length + 1) 0 m

/-! ## Simplification engine (spec §4.7) -/

def edgeLenSq (m : Mesh) (e : Nat × Nat) : ℚ :=
  Vec3.distSq (m.pos e.1) (m.pos e.2)

/-- Modelled from the spec: legal collapse candidates (spec §4.7; missing
WASM core) — edges of the current mesh whose collapse keeps the mesh
manifold (at most two incident faces; spec §4.7 rejects collapses creating
non-manifold edges) and, when `preserveBorders`, are not border edges. -/
def legalEdges (preserveBorders : Bool) (m : Mesh) : List (Nat × Nat) :=
  m.allEdges.filter (fun e =>
    (e.1 != e.2) && decide (m.edgeFaceCount e.1 e.2 ≤ 2) &&
    !(preserveBorders && (m.edgeFaceCount e.1 e.2 == 1)))

/-- Modelled from the spec: the priority-queue head of the greedy collapse
loop (spec §4.7; missing WASM core) — the model ranks candidates by squared
edge length as a stand-in for the quadric-error ranking computed by the
missing core; the ranking does not affect the counting behaviour. -/
def pickMin {α : Type} (cost : α → ℚ) (best : Option α) (x : α) : Option α :=
  match best with
  | none => some x
  | some b => if cost x < cost b then some x else some b

def chooseCollapseEdge (preserveBorders : Bool) (m : Mesh) :
    Option (Nat × Nat) :=
  (legalEdges preserveBorders m).foldl (pickMin (edgeLenSq m)) none

def renameVertex (oldIdx newIdx : Nat) (f : Face) : Face :=
  ⟨if f.a = oldIdx then newIdx else f.a,
   if f.b = oldIdx then newIdx else f.b,
   if f.c = oldIdx then newIdx else f.c⟩

/-- Modelled from the spec: collapse of edge `(i, j)` (spec §4.7; missing
WASM core) — merges `j` into `i`, moves `i` to the edge midpoint (the
model's stand-in for the quadric-optimal position, midpoint being the
documented fallback) and deletes the faces incident to the collapsed
edge. -/
def collapseEdge (m : Mesh) (e : Nat × Nat) : Mesh :=
  { vertices := m.vertices.mapIdx (fun k p =>
      if k = e.1 then Vec3.smul (1 / 2) ((m.pos e.1).add (m.pos e.2)) else p),
    faces :=
      (m.faces.filter (fun f => !(f.hasVertex e.1 && f.hasVertex e.2))).map
        (renameVertex e.2 e.1) }

def simplifyGo (preserveBorders : Bool) (target : Nat) : Nat → Mesh → Mesh
  | 0, m => m
  | fuel + 1, m =>
      if m.faces.length ≤ target then m
      else
        match chooseCollapseEdge preserveBorders m with
        | none => m
        | some e => simplifyGo preserveBorders target fuel (collapseEdge m e)

/-- Result of a simplify call (SimplificationClient `SimplifyResult`:
output mesh plus input/output face counts). -/
structure SimplifyOutcome where
  mesh : Mesh
  inputFaces : Nat
  outputFaces : Nat
deriving DecidableEq, Repr

/-- Modelled from the spec: the simplification engine loop
(`meshlib_simplify_stl`, missing from src/) — greedy edge collapse until
the target face count is reached or no legal collapse remains (spec §4.7),
reporting input and output face counts. -/
def simplifyEngine (preserveBorders : Bool) (target : Nat) (m : Mesh) :
    SimplifyOutcome :=
  let out := simplifyGo preserveBorders target m.faces.length m
  ⟨out, m.faces.length, out.faces.length⟩

/-- Modelled from the spec: target face count derived from the client's
target ratio (SimplificationClient sends `targetFaces = 0` meaning "use
ratio"; spec §4.7). -/
def targetFromRatio (ratio : ℚ) (inputFaces : Nat) : Nat :=
  (Rat.floor (ratio * inputFaces)).toNat

/-! ## Worker/client error propagation (smoothing.worker.ts,
fillHoles.worker.ts, smoothingClient.ts, FillHolesClient, annotations
worker and AnnotationsClient) -/

/-- Outcome of the WASM call observed inside a worker job handler: either
the exported function returned (with its return code, outputs and the
error-string pointer contents) or the surrounding JS threw. -/
inductive WasmCallOutcome where
  | returned (rc : Int) (faces vertices : Nat) (err : String)
  | threw (msg : String)
deriving DecidableEq, Repr

/-- The final message a worker posts back for a job
(smoothing.worker.ts `ResponseMessage`). -/
inductive WorkerResponseMsg where
  | ok (faces vertices : Nat)
  | fail (rc : Int) (error : String)
deriving DecidableEq, Repr

/-- `handleJobMessage` (smoothing.worker.ts; fillHoles.worker.ts is the
same shape): `rc ≠ 0` posts `ok: false` with that rc and the error string;
a thrown exception posts `ok: false` with `rc = -1` and the stringified
error; only `rc = 0` posts `ok: true` with the outputs. -/
def workerResponse : WasmCallOutcome → WorkerResponseMsg
  | .returned rc faces verts err => if rc ≠ 0 then .fail rc err else .ok faces verts
  | .threw msg => .fail (-1) msg

/-- How a client settles the per-request promise. -/
inductive SettleAction where
  | resolve (faces vertices : Nat)
  | reject (rc : Int) (error : String)
deriving DecidableEq, Repr

def SettleAction.isResolve : SettleAction → Bool
  | .resolve _ _ => true
  | .reject _ _ => false

/-- `handleMessage` (smoothingClient.ts; `FillHolesClient.fillHoles`'s
`onMessage` has the same branch): `d.ok` resolves with the payload,
otherwise the promise is rejected with an Error carrying the rc and the
worker's error string. -/
def clientSettle : WorkerResponseMsg → SettleAction
  | .ok f v => .resolve f v
  | .fail rc e => .reject rc e

/-- Outcome of one annotations-worker operation handler: a result payload
or a thrown error. -/
inductive AnnotOutcome where
  | result (numFaces : Nat)
  | failure (msg : String)
deriving DecidableEq, Repr

/-- Message the annotations worker posts (annotations worker message
handler: every handler is wrapped in try/catch whose catch posts
`type: 'error'` with the message). -/
inductive AnnotMsg where
  | resultMsg (numFaces : Nat)
  | errorMsg (msg : String)
deriving DecidableEq, Repr

def annotWorkerPost : AnnotOutcome → AnnotMsg
  | .result n => .resultMsg n
  | .failure msg => .errorMsg msg

/-- How `AnnotationsClient.onMessage` settles a request. -/
inductive AnnotSettle where
  | resolve (numFaces : Nat)
  | reject (msg : String)
deriving DecidableEq, Repr

def AnnotSettle.isResolve : AnnotSettle → Bool
  | .resolve _ => true
  | .reject _ => false

/-- `AnnotationsClient.onMessage`: `type: 'result'` resolves with the
payload and `type: 'error'` rejects with `Error(error)`. -/
def annotClientSettle : AnnotMsg → AnnotSettle
  | .resultMsg n => .resolve n
  | .errorMsg m => .reject m

/-! ## Mesh checks page (MeshChecksPage.tsx) -/

/-- Little-endian uint32 at byte offset `off` (DataView.getUint32 with
littleEndian = true). -/
def readUint32LE (buf : List Nat) (off : Nat) : Nat :=
  buf.getD off 0 + 256 * buf.getD (off + 1) 0 +
    65536 * buf.getD (off + 2) 0 + 16777216 * buf.getD (off + 3) 0

/-- `triangleCountFromStl` (MeshChecksPage.tsx): null for every buffer
shorter than 84 bytes, otherwise the uint32LE stored at byte offset 80 of
the binary STL header. -/
def triangleCountFromStl (buf : List Nat) : Option Nat :=
  if buf.length < 84 then none
  else some (readUint32LE buf 80)

inductive CheckStatus where
  | pass
  | fail
deriving DecidableEq, Repr

/-- The holes-check verdict of `runHolesCheck` (MeshChecksPage.tsx): when
both triangle counts are readable, `addedTris = outputTris - inputTris`
and the page reports "Holes detected" (fail) iff `addedTris > 0`,
otherwise "Watertight" (pass); if either count is unreadable it falls back
to comparing byte sizes. -/
def holesCheckVerdict (inputTris outputTris : Option Nat)
    (inputBytes outputBytes : Nat) : CheckStatus :=
  match inputTris, outputTris with
  | some i, some o => if (0 : Int) < (o : Int) - (i : Int) then .fail else .pass
  | _, _ => if outputBytes ≠ inputBytes then .fail else .pass

/-! ## Per-request settlement (smoothingClient.ts / SimplificationClient
pending map; both classes implement the identical pattern) -/

/-- Events affecting a client's pending map: `smooth()`/`simplify()` issuing
a new request (optionally arming a timeout timer), a worker message for an
id, a timeout timer firing, and `resetWorker()`. -/
inductive ClientEvent where
  | newRequest (withTimeout : Bool)
  | workerMessage (id : Nat) (ok : Bool)
  | timerFire (id : Nat)
  | reset
deriving DecidableEq, Repr

inductive SettleKind where
  | resolved
  | rejected
deriving DecidableEq, Repr

/-- Client bookkeeping: `nextId`, the ids present in the `pending` map, and
the ids with an armed timeout timer (a one-shot `setTimeout` that settling
clears via `clearTimeout`). -/
structure ClientState where
  nextId : Nat
  pending : List Nat
  timers : List Nat
deriving DecidableEq, Repr

def initialClientState : ClientState := ⟨1, [], []⟩

/-- One step of the client, returning the new state and the settle events
it emits (smoothingClient.ts):
* `newRequest` — `smooth()` allocates `id = nextId++`, stores the entry in
  `pending` and arms the timer when a timeout is configured;
* `timerFire id` — the timeout callback (it can only fire while the timer
  is still armed, since every settling path runs `clearTimeout` first):
  deletes the pending entry and rejects the promise;
* `workerMessage id ok` — `handleMessage`: a message whose id is no longer
  in `pending` is ignored; otherwise the entry is deleted, its timer
  cleared, and the promise resolved (`d.ok`) or rejected (otherwise);
* `reset` — `resetWorker()` clears every timer, rejects every pending
  promise and clears the map. -/
def stepClient (s : ClientState) : ClientEvent → ClientState × List (Nat × SettleKind)
  | .newRequest wt =>
      (⟨s.nextId + 1, s.nextId :: s.pending,
        if wt then s.nextId :: s.timers else s.timers⟩, [])
  | .timerFire i =>
      if s.timers.contains i then
        (⟨s.nextId, s.pending.erase i, s.timers.erase i⟩, [(i, .rejected)])
      else (s, [])
  | .workerMessage i ok =>
      if s.pending.contains i then
        (⟨s.nextId, s.pending.erase i, s.timers.erase i⟩,
         [(i, if ok then .resolved else .rejected)])
      else (s, [])
  | .reset =>
      (⟨s.nextId, [], []⟩, s.pending.map (fun i => (i, .rejected)))

def runClientAux : ClientState → List (Nat × SettleKind) → List ClientEvent →
    ClientState × List (Nat × SettleKind)
  | s, log, [] => (s, log)
  | s, log, e :: es =>
      runClientAux (stepClient s e).1 (log ++ (stepClient s e).2) es

/-- A whole client run from the initial state, yielding the final state and
the full settle log. -/
def runClient (events : List ClientEvent) : ClientState × List (Nat × SettleKind) :=
  runClientAux initialClientState [] events

/-- Number of times request `i` was settled in a log. -/
def settleCount (log : List (Nat × SettleKind)) (i : Nat) : Nat :=
  (log.filter (fun pr => pr.1 == i)).length

/-- The invariant tying a client state to the settle log: ids are unique
and fresh, timers are armed only for pending requests, a pending request
has never been settled, and no request is ever settled twice. -/
structure ClientInv (s : ClientState) (log : List (Nat × SettleKind)) : Prop where
  pendingNodup : s.pending.Nodup
  timersNodup : s.timers.Nodup
  pendingBounded : ∀ i ∈ s.pending, i < s.nextId
  timersSub : ∀ i ∈ s.timers, i ∈ s.pending
  pendingFresh : ∀ i ∈ s.pending, settleCount log i = 0
  futureFresh : ∀ i, s.nextId ≤ i → settleCount log i = 0
  once : ∀ i, settleCount log i ≤ 1

end Meshlib

namespace Meshlib

/-! ## Helper lemmas for the smoothing engine -/

theorem diffuseStep_faces (t : ℚ) (m : Mesh) : (diffuseStep t m).faces = m.faces := rfl

theorem hcStep_faces (o : Nat → Vec3) (a b : ℚ) (m : Mesh) :
    (hcStep o a b m).faces = m.faces := rfl

theorem tangentialStep_faces (m : Mesh) : (tangentialStep m).faces = m.faces := rfl

theorem diffuseStep_numVertices (t : ℚ) (m : Mesh) :
    (diffuseStep t m).vertices.length = m.vertices.length := by
  simp [diffuseStep]

theorem hcStep_numVertices (o : Nat → Vec3) (a b : ℚ) (m : Mesh) :
    (hcStep o a b m).vertices.length = m.vertices.length := by
  simp [hcStep]

theorem tangentialStep_numVertices (m : Mesh) :
    (tangentialStep m).vertices.length = m.vertices.length := by
  simp [tangentialStep]

theorem smoothingStep_faces (method : SmoothingMethod) (o : Nat → Vec3)
    (l mu a b : ℚ) (m : Mesh) :
    (smoothingStep method o l mu a b m).faces = m.faces := by
  cases method <;>
    simp [smoothingStep, diffuseStep_faces, hcStep_faces, tangentialStep_faces]

theorem smoothingStep_numVertices (method : SmoothingMethod) (o : Nat → Vec3)
    (l mu a b : ℚ) (m : Mesh) :
    (smoothingStep method o l mu a b m).vertices.length = m.vertices.length := by
  cases method <;>
    simp [smoothingStep, diffuseStep_numVertices, hcStep_numVertices,
      tangentialStep_numVertices]

theorem iterateSteps_preserves (f : Mesh → Mesh)
    (hf : ∀ m : Mesh, (f m).faces = m.faces)
    (hv : ∀ m : Mesh, (f m).vertices.length = m.vertices.length) :
    ∀ (n : Nat) (m : Mesh),
      (iterateSteps f n m).faces = m.faces ∧
      (iterateSteps f n m).vertices.length = m.vertices.length := by
  intro n
  induction n with
  | zero => intro m; exact ⟨rfl, rfl⟩
  | succ k ih =>
      intro m
      have h := ih (f m)
      exact ⟨h.1.trans (hf m), h.2.trans (hv m)⟩

end Meshlib

namespace Meshlib

/-- Claim C1: for every smoothing call that succeeds, for all four smoothing
methods and every iteration count ≥ 0, the output mesh has the same face
list and the same vertex count as the input mesh (so the faces/vertices
fields reported in the result equal the input mesh's counts), and a call
with iteration count 0 leaves the mesh — in particular every vertex
position — exactly unchanged. -/
theorem C1_smoothing_preserves_topology (method : SmoothingMethod)
    (iterations : Nat) (lambda mu alpha beta : ℚ) (m : Mesh) (r : SmoothResult)
    (h : smoothEngine method iterations lambda mu alpha beta m = .ok r) :
    r.faces = m.faces.length ∧ r.vertices = m.vertices.length ∧
    r.mesh.faces = m.faces ∧ r.mesh.vertices.length = m.vertices.length ∧
    (iterations = 0 → r.mesh = m) := by
  unfold smoothEngine at h
  by_cases hc : (method == .taubin && !taubinParamsValid lambda mu) = true
  · rw [if_pos hc] at h; cases h
  · rw [if_neg hc] at h
    have hr : r = ⟨iterateSteps (smoothingStep method m.pos lambda mu alpha beta) iterations m,
        (iterateSteps (smoothingStep method m.pos lambda mu alpha beta) iterations m).faces.length,
        (iterateSteps (smoothingStep method m.pos lambda mu alpha beta) iterations m).vertices.length⟩ := by
      cases h; rfl
    subst hr
    have hpres := iterateSteps_preserves
      (smoothingStep method m.pos lambda mu alpha beta)
      (fun m' => smoothingStep_faces method m.pos lambda mu alpha beta m')
      (fun m' => smoothingStep_numVertices method m.pos lambda mu alpha beta m')
      iterations m
    refine ⟨by simp [hpres.1], by simp [hpres.2], hpres.1, hpres.2, ?_⟩
    intro h0
    subst h0
    rfl

/-- Witness for C1: a concrete Laplacian call with 0 iterations on a
one-triangle mesh succeeds and reports the input's counts unchanged. -/
theorem C1_smoothing_preserves_topology_witness :
    (smoothEngine .laplacian 0 0 0 0 0
        ⟨[⟨0,0,0⟩, ⟨1,0,0⟩, ⟨0,1,0⟩], [⟨0,1,2⟩]⟩ =
      .ok ⟨⟨[⟨0,0,0⟩, ⟨1,0,0⟩, ⟨0,1,0⟩], [⟨0,1,2⟩]⟩, 1, 3⟩) ∧
    (1 = ([⟨0,1,2⟩] : List Face).length ∧
     3 = ([⟨0,0,0⟩, ⟨1,0,0⟩, ⟨0,1,0⟩] : List Vec3).length ∧
     ([⟨0,1,2⟩] : List Face) = [⟨0,1,2⟩] ∧
     ([⟨0,0,0⟩, ⟨1,0,0⟩, ⟨0,1,0⟩] : List Vec3).length = 3 ∧
     (0 = 0 → (⟨[⟨0,0,0⟩, ⟨1,0,0⟩, ⟨0,1,0⟩], [⟨0,1,2⟩]⟩ : Mesh) =
       ⟨[⟨0,0,0⟩, ⟨1,0,0⟩, ⟨0,1,0⟩], [⟨0,1,2⟩]⟩)) := by
  refine ⟨rfl, ?_⟩
  have h := C1_smoothing_preserves_topology .laplacian 0 0 0 0 0
    ⟨[⟨0,0,0⟩, ⟨1,0,0⟩, ⟨0,1,0⟩], [⟨0,1,2⟩]⟩
    ⟨⟨[⟨0,0,0⟩, ⟨1,0,0⟩, ⟨0,1,0⟩], [⟨0,1,2⟩]⟩, 1, 3⟩ rfl
  exact ⟨h.1, h.2.1, h.2.2.1, h.2.2.2.1, fun _ => rfl⟩

/-- Claim C2: a Taubin smoothing call must satisfy μ > λ strictly (both in
(0,1)); any call with μ ≤ λ is rejected with `InvalidParameterError` — it
returns no mesh at all, so nothing is mutated — and the client sends
λ = 0.5 and μ = 0.53 to the worker when the caller omits them. -/
theorem C2_taubin_rejects_mu_le_lambda (iterations : Nat)
    (lambda mu alpha beta : ℚ) (m : Mesh) (h : mu ≤ lambda) :
    smoothEngine .taubin iterations lambda mu alpha beta m =
      .error .invalidParameter ∧
    requestLambda none = 1 / 2 ∧ requestMu none = 53 / 100 := by
  refine ⟨?_, rfl, rfl⟩
  have hvalid : taubinParamsValid lambda mu = false := by
    unfold taubinParamsValid
    have : ¬ lambda < mu := not_lt.mpr h
    simp [this]
  unfold smoothEngine
  have hcond : (SmoothingMethod.taubin == SmoothingMethod.taubin &&
      !taubinParamsValid lambda mu) = true := by
    rw [hvalid]; rfl
  rw [if_pos hcond]

/-- Witness for C2: a concrete Taubin call with μ = λ = 0 is rejected with
`InvalidParameterError`, and the defaults are 1/2 and 53/100. -/
theorem C2_taubin_rejects_mu_le_lambda_witness :
    smoothEngine .taubin 1 0 0 0 0 ⟨[], []⟩ = .error .invalidParameter ∧
    requestLambda none = 1 / 2 ∧ requestMu none = 53 / 100 :=
  C2_taubin_rejects_mu_le_lambda 1 0 0 0 0 ⟨[], []⟩ le_rfl

/-- Claim C3: `patchFromLandmarks` requires at least 3 landmarks — with
fewer it fails with `InsufficientLandmarksError` and produces no patch
(and the page-level guard shows an error instead of calling the client);
with ≥ 3 landmarks the closed landmark contour is flood-filled and the
page proceeds to the client call. -/
theorem C3_patchFromLandmarks_requires_three (m : Mesh)
    (landmarkFaces : List Nat) (positions : List Vec3) :
    (landmarkFaces.length < 3 →
      patchFromLandmarks m landmarkFaces positions =
        .error .insufficientLandmarks ∧
      handleCreatePatchGuard landmarkFaces.length =
        .showError tooFewLandmarksText) ∧
    (3 ≤ landmarkFaces.length →
      patchFromLandmarks m landmarkFaces positions =
        .ok ⟨floodFillContour m landmarkFaces positions,
          (floodFillContour m landmarkFaces positions).length⟩ ∧
      handleCreatePatchGuard landmarkFaces.length = .callPatchFromLandmarks) := by
  constructor
  · intro hlt
    refine ⟨?_, ?_⟩
    · unfold patchFromLandmarks
      rw [if_pos hlt]
    · unfold handleCreatePatchGuard
      rw [if_pos hlt]
  · intro hge
    have hnot : ¬ landmarkFaces.length < 3 := not_lt.mpr hge
    refine ⟨?_, ?_⟩
    · unfold patchFromLandmarks
      rw [if_neg hnot]
    · unfold handleCreatePatchGuard
      rw [if_neg hnot]

/-- Witness for C3: two landmarks are rejected with
`InsufficientLandmarksError`; three landmarks produce a patch. -/
theorem C3_patchFromLandmarks_requires_three_witness :
    patchFromLandmarks ⟨[], []⟩ [0, 1] [] = .error .insufficientLandmarks ∧
    patchFromLandmarks ⟨[], []⟩ [0, 1, 2] [] =
      .ok ⟨floodFillContour ⟨[], []⟩ [0, 1, 2] [],
        (floodFillContour ⟨[], []⟩ [0, 1, 2] []).length⟩ :=
  ⟨((C3_patchFromLandmarks_requires_three ⟨[], []⟩ [0, 1] []).1 (by decide)).1,
   ((C3_patchFromLandmarks_requires_three ⟨[], []⟩ [0, 1, 2] []).2 (by decide)).1⟩

/-- Claim C4: in `selectPatch`, with the normal-angle check enabled
(`maxNormalAngleDeg ≥ 0`) a neighbour face is admitted only if it also
passes the angle test, while for every call with `maxNormalAngleDeg < 0`
the angle check is skipped entirely — admission depends only on the radius
condition, so the grown patch does not depend on the angle test at all —
and the client passes -1 to disable the check. -/
theorem C4_selectPatch_angle_gate (m : Mesh)
    (radiusOk angleOk angleOk' : Nat → Bool) (seedFaceIndex : Nat)
    (center : Vec3) (radius maxNormalAngleDeg maxAngle : ℚ) :
    (0 ≤ maxNormalAngleDeg → ∀ fi,
      admitsFace radiusOk angleOk maxNormalAngleDeg fi =
        (radiusOk fi && angleOk fi)) ∧
    (maxNormalAngleDeg < 0 →
      (∀ fi, admitsFace radiusOk angleOk maxNormalAngleDeg fi = radiusOk fi) ∧
      selectPatchFaces m angleOk seedFaceIndex center radius maxNormalAngleDeg =
        selectPatchFaces m angleOk' seedFaceIndex center radius maxNormalAngleDeg) ∧
    clientMaxNormalAngleDeg false maxAngle = -1 ∧
    clientMaxNormalAngleDeg true maxAngle = maxAngle := by
  refine ⟨?_, ?_, rfl, rfl⟩
  · intro hge fi
    have hdec : decide (maxNormalAngleDeg < 0) = false := by
      simp [not_lt.mpr hge]
    simp [admitsFace, hdec]
  · intro hlt
    have hdec : decide (maxNormalAngleDeg < 0) = true := by simp [hlt]
    constructor
    · intro fi
      simp [admitsFace, hdec]
    · have hfun : admitsFace (withinRadius m center radius) angleOk
          maxNormalAngleDeg =
          admitsFace (withinRadius m center radius) angleOk' maxNormalAngleDeg := by
        funext fi
        simp [admitsFace, hdec]
      unfold selectPatchFaces
      rw [hfun]

/-- Witness for C4: with `maxNormalAngleDeg = -1` the admission test equals
the radius test alone and the grown patch ignores the angle test. -/
theorem C4_selectPatch_angle_gate_witness :
    (admitsFace (fun _ => true) (fun _ => false) (-1) 0 = true) ∧
    selectPatchFaces ⟨[⟨0,0,0⟩, ⟨1,0,0⟩, ⟨0,1,0⟩], [⟨0,1,2⟩]⟩
        (fun _ => false) 0 vecZero 1 (-1) =
      selectPatchFaces ⟨[⟨0,0,0⟩, ⟨1,0,0⟩, ⟨0,1,0⟩], [⟨0,1,2⟩]⟩
        (fun _ => true) 0 vecZero 1 (-1) := by
  have h := C4_selectPatch_angle_gate
    ⟨[⟨0,0,0⟩, ⟨1,0,0⟩, ⟨0,1,0⟩], [⟨0,1,2⟩]⟩
    (fun _ => true) (fun _ => false) (fun _ => true) 0 vecZero 1 (-1) 5
  have hlt : (-1 : ℚ) < 0 := by decide
  exact ⟨(h.2.1 hlt).1 0, (h.2.1 hlt).2⟩

/-! ## Self-intersection theorems -/

theorem repairGo_ok_no_pairs :
    ∀ (fuel removed : Nat) (m : Mesh) (r : RepairResult),
      repairGo fuel removed m = .ok r → intersectingPairs r.mesh = [] := by
  intro fuel
  induction fuel with
  | zero =>
      intro removed m r h
      simp [repairGo] at h
  | succ k ih =>
      intro removed m r h
      unfold repairGo at h
      by_cases hp : (intersectingPairs m).isEmpty = true
      · rw [if_pos hp] at h
        cases h
        exact List.isEmpty_iff.mp hp
      · rw [if_neg hp] at h
        cases hfill : fillHoles (removeFlagged m) with
        | none => rw [hfill] at h; cases h
        | some m2 => rw [hfill] at h; exact ih _ m2 r h

/-- Claim C5: self-intersection repair is idempotent with detect — whenever
repair reports full success, detect on the repaired output returns
`count = 0` and hence an empty segments array. -/
theorem C5_repair_then_detect_clean (m : Mesh) (r : RepairResult)
    (h : repairSelfIntersections m = .ok r) :
    (detectSelfIntersections r.mesh).count = 0 ∧
    (detectSelfIntersections r.mesh).segments = [] := by
  have hp := repairGo_ok_no_pairs _ _ _ _ h
  unfold detectSelfIntersections
  simp [hp]

/-- Witness for C5: repair fully succeeds on a one-triangle mesh and detect
on its output reports zero intersections and no segments. -/
theorem C5_repair_then_detect_clean_witness :
    repairSelfIntersections ⟨[⟨0,0,0⟩, ⟨1,0,0⟩, ⟨0,1,0⟩], [⟨0,1,2⟩]⟩ =
      .ok ⟨⟨[⟨0,0,0⟩, ⟨1,0,0⟩, ⟨0,1,0⟩], [⟨0,1,2⟩]⟩, 0⟩ ∧
    (detectSelfIntersections
        ⟨[⟨0,0,0⟩, ⟨1,0,0⟩, ⟨0,1,0⟩], [⟨0,1,2⟩]⟩).count = 0 ∧
    (detectSelfIntersections
        ⟨[⟨0,0,0⟩, ⟨1,0,0⟩, ⟨0,1,0⟩], [⟨0,1,2⟩]⟩).segments = [] :=
  ⟨rfl,
    C5_repair_then_detect_clean ⟨[⟨0,0,0⟩, ⟨1,0,0⟩, ⟨0,1,0⟩], [⟨0,1,2⟩]⟩
      ⟨⟨[⟨0,0,0⟩, ⟨1,0,0⟩, ⟨0,1,0⟩], [⟨0,1,2⟩]⟩, 0⟩ rfl⟩

theorem length_segmentOfPair (t1 t2 : Tri) : (segmentOfPair t1 t2).length = 6 := by
  unfold segmentOfPair
  split <;> rfl

theorem length_flatten_of_const6 {α : Type} (f : α → List ℚ)
    (hf : ∀ x, (f x).length = 6) :
    ∀ l : List α, ((l.map f).flatten).length = 6 * l.length := by
  intro l
  induction l with
  | nil => rfl
  | cons x xs ih =>
      simp only [List.map_cons, List.flatten_cons, List.length_append, hf x,
        ih, List.length_cons]
      ring

/-- Claim C6: every detect result pairs the reported count with exactly one
intersection line segment per detected intersecting pair — the flat
segments array holds 6 coordinates (two 3-D endpoints) per pair, so its
length is exactly `6 * count`. -/
theorem C6_detect_one_segment_per_pair (m : Mesh) :
    (detectSelfIntersections m).count = (intersectingPairs m).length ∧
    (detectSelfIntersections m).segments =
      ((intersectingPairs m).map
        (fun pr => segmentOfPair (m.triAt pr.1) (m.triAt pr.2))).flatten ∧
    (∀ pr : Nat × Nat, (segmentOfPair (m.triAt pr.1) (m.triAt pr.2)).length = 6) ∧
    (detectSelfIntersections m).segments.length =
      6 * (detectSelfIntersections m).count := by
  refine ⟨rfl, rfl, fun pr => length_segmentOfPair _ _, ?_⟩
  exact length_flatten_of_const6 _ (fun pr => length_segmentOfPair _ _) _

/-! ## Simplification theorems -/

theorem length_filter_not_add {α : Type} (p : α → Bool) (l : List α) :
    (l.filter (fun a => !(p a))).length + (l.filter p).length = l.length := by
  induction l with
  | nil => rfl
  | cons x xs ih =>
      cases hx : p x <;> simp [List.filter_cons, hx] <;> omega

theorem collapseEdge_faces_length (m : Mesh) (e : Nat × Nat) :
    (collapseEdge m e).faces.length =
      m.faces.length - m.edgeFaceCount e.1 e.2 := by
  have h := length_filter_not_add
    (fun f => f.hasVertex e.1 && f.hasVertex e.2) m.faces
  simp only [collapseEdge, List.length_map, Mesh.edgeFaceCount]
  omega

theorem hasVertex_normEdge_fst (f : Face) (i j : Nat)
    (hi : f.hasVertex i = true) (hj : f.hasVertex j = true) :
    f.hasVertex (normEdge i j).1 = true ∧ f.hasVertex (normEdge i j).2 = true := by
  unfold normEdge
  split
  · exact ⟨hi, hj⟩
  · exact ⟨hj, hi⟩

theorem hasVertex_self_a (f : Face) : f.hasVertex f.a = true := by
  simp [Face.hasVertex]

theorem hasVertex_self_b (f : Face) : f.hasVertex f.b = true := by
  simp [Face.hasVertex]

theorem hasVertex_self_c (f : Face) : f.hasVertex f.c = true := by
  simp [Face.hasVertex]

theorem edgeFaceCount_pos_of_mem_allEdges (m : Mesh) (e : Nat × Nat)
    (he : e ∈ m.allEdges) : 1 ≤ m.edgeFaceCount e.1 e.2 := by
  unfold Mesh.allEdges at he
  have he' := List.mem_dedup.mp he
  rcases List.mem_flatMap.mp he' with ⟨f, hf, hmem⟩
  have hv : f.hasVertex e.1 = true ∧ f.hasVertex e.2 = true := by
    simp only [List.mem_cons, List.not_mem_nil, or_false] at hmem
    rcases hmem with h | h | h <;> subst h
    · exact hasVertex_normEdge_fst f f.a f.b (hasVertex_self_a f) (hasVertex_self_b f)
    · exact hasVertex_normEdge_fst f f.b f.c (hasVertex_self_b f) (hasVertex_self_c f)
    · exact hasVertex_normEdge_fst f f.c f.a (hasVertex_self_c f) (hasVertex_self_a f)
  unfold Mesh.edgeFaceCount
  have hmemf : f ∈ m.faces.filter (fun g => g.hasVertex e.1 && g.hasVertex e.2) :=
    List.mem_filter.mpr ⟨hf, by simp [hv.1, hv.2]⟩
  have : 0 < (m.faces.filter (fun g => g.hasVertex e.1 && g.hasVertex e.2)).length :=
    List.length_pos.mpr (List.ne_nil_of_mem hmemf)
  omega

theorem foldl_min_mem {α : Type} (cost : α → ℚ) :
    ∀ (l : List α) (acc : Option α) (e : α),
      l.foldl (pickMin cost) acc = some e →
      e ∈ l ∨ acc = some e := by
  intro l
  induction l with
  | nil => intro acc e h; exact Or.inr h
  | cons x xs ih =>
      intro acc e h
      simp only [List.foldl_cons] at h
      rcases ih _ e h with hmem | hacc
      · exact Or.inl (List.mem_cons_of_mem _ hmem)
      · cases acc with
        | none =>
            simp only [pickMin] at hacc
            cases hacc
            exact Or.inl (List.mem_cons_self _ _)
        | some b =>
            by_cases hc : cost x < cost b
            · simp only [pickMin, if_pos hc] at hacc
              cases hacc
              exact Or.inl (List.mem_cons_self _ _)
            · simp only [pickMin, if_neg hc] at hacc
              exact Or.inr hacc

theorem chooseCollapseEdge_mem (pres : Bool) (m : Mesh) (e : Nat × Nat)
    (h : chooseCollapseEdge pres m = some e) : e ∈ legalEdges pres m := by
  unfold chooseCollapseEdge at h
  rcases foldl_min_mem (edgeLenSq m) (legalEdges pres m) none e h with hmem | hacc
  · exact hmem
  · cases hacc

theorem edgeFaceCount_of_mem_legalEdges (pres : Bool) (m : Mesh)
    (e : Nat × Nat) (h : e ∈ legalEdges pres m) :
    1 ≤ m.edgeFaceCount e.1 e.2 ∧ m.edgeFaceCount e.1 e.2 ≤ 2 := by
  have h' := List.mem_filter.mp h
  refine ⟨edgeFaceCount_pos_of_mem_allEdges m e h'.1, ?_⟩
  have h2 := h'.2
  simp only [Bool.and_eq_true, decide_eq_true_eq] at h2
  exact h2.1.2

theorem simplifyGo_bounds (pres : Bool) (target : Nat) :
    ∀ (fuel : Nat) (m : Mesh),
      (simplifyGo pres target fuel m).faces.length ≤ m.faces.length ∧
      min m.faces.length (target - 1) ≤ (simplifyGo pres target fuel m).faces.length := by
  intro fuel
  induction fuel with
  | zero => intro m; exact ⟨le_rfl, min_le_left _ _⟩
  | succ k ih =>
      intro m
      unfold simplifyGo
      by_cases hstop : m.faces.length ≤ target
      · rw [if_pos hstop]
        exact ⟨le_rfl, min_le_left _ _⟩
      · rw [if_neg hstop]
        cases hch : chooseCollapseEdge pres m with
        | none => exact ⟨le_rfl, min_le_left _ _⟩
        | some e =>
            have hmem := chooseCollapseEdge_mem pres m e hch
            have hcnt := edgeFaceCount_of_mem_legalEdges pres m e hmem
            have hcoll := collapseEdge_faces_length m e
            have ihm := ih (collapseEdge m e)
            have hlt : target < m.faces.length := Nat.lt_of_not_le hstop
            constructor
            · exact le_trans ihm.1 (by omega)
            · have h1 : target - 1 ≤ (collapseEdge m e).faces.length := by omega
              have h3 : min (collapseEdge m e).faces.length (target - 1) =
                  target - 1 := min_eq_right h1
              have h2 := ihm.2
              rw [h3] at h2
              exact le_trans (min_le_right _ _) h2

/-- Claim C7: simplification is monotone and never overshoots — the
reported output face count equals the output mesh's face count, is at most
the input face count, and never goes below the requested target by more
than one collapse step (a legal manifold collapse removes at most two
faces, and collapses run only while the count exceeds the target, so the
output is at least `target - 1` unless the input was already at or below
the target). -/
theorem C7_simplify_monotone_no_overshoot (preserveBorders : Bool)
    (target : Nat) (m : Mesh) :
    (simplifyEngine preserveBorders target m).inputFaces = m.faces.length ∧
    (simplifyEngine preserveBorders target m).outputFaces =
      (simplifyEngine preserveBorders target m).mesh.faces.length ∧
    (simplifyEngine preserveBorders target m).outputFaces ≤
      (simplifyEngine preserveBorders target m).inputFaces ∧
    min m.faces.length (target - 1) ≤
      (simplifyEngine preserveBorders target m).outputFaces := by
  have h := simplifyGo_bounds preserveBorders target m.faces.length m
  exact ⟨rfl, rfl, h.1, h.2⟩

/-! ## Error-propagation theorems -/

/-- Claim C8: no error is silently swallowed on any operation path — a
worker job whose WASM call returns a non-zero code, or whose handler
throws, posts `ok: false` with the code and message (the annotations
worker posts `type: 'error'`), and the client rejects the promise with an
Error carrying that code and message; the promise resolves successfully
only on the `rc = 0` success path (respectively only for a result
message). -/
theorem C8_errors_always_propagate :
    (∀ (rc : Int) (f v : Nat) (err : String), rc ≠ 0 →
      workerResponse (.returned rc f v err) = .fail rc err ∧
      clientSettle (workerResponse (.returned rc f v err)) = .reject rc err) ∧
    (∀ msg : String,
      workerResponse (.threw msg) = .fail (-1) msg ∧
      clientSettle (workerResponse (.threw msg)) = .reject (-1) msg) ∧
    (∀ o : WasmCallOutcome,
      (clientSettle (workerResponse o)).isResolve = true ↔
        ∃ f v err, o = .returned 0 f v err) ∧
    (∀ msg : String,
      annotWorkerPost (.failure msg) = .errorMsg msg ∧
      annotClientSettle (annotWorkerPost (.failure msg)) = .reject msg) ∧
    (∀ a : AnnotOutcome,
      (annotClientSettle (annotWorkerPost a)).isResolve = true ↔
        ∃ n, a = .result n) := by
  refine ⟨?_, ?_, ?_, ?_, ?_⟩
  · intro rc f v err h
    constructor <;> simp [workerResponse, clientSettle, h]
  · intro msg; exact ⟨rfl, rfl⟩
  · intro o
    cases o with
    | returned rc f v err =>
        by_cases h : rc = 0
        · subst h
          simp [workerResponse, clientSettle, SettleAction.isResolve]
        · simp [workerResponse, clientSettle, SettleAction.isResolve, h]
    | threw msg =>
        simp [workerResponse, clientSettle, SettleAction.isResolve]
  · intro msg; exact ⟨rfl, rfl⟩
  · intro a
    cases a <;> simp [annotWorkerPost, annotClientSettle, AnnotSettle.isResolve]

/-- Witness for C8: a job returning rc = 5 is posted as a failure and
rejected by the client with that code and message. -/
theorem C8_errors_always_propagate_witness :
    workerResponse (.returned 5 0 0 "mesh load failed") =
      .fail 5 "mesh load failed" ∧
    clientSettle (workerResponse (.returned 5 0 0 "mesh load failed")) =
      .reject 5 "mesh load failed" :=
  C8_errors_always_propagate.1 5 0 0 "mesh load failed" (by decide)

/-! ## Mesh-checks theorems -/

/-- Claim C9: `triangleCountFromStl` returns null for every buffer shorter
than 84 bytes and otherwise exactly the little-endian uint32 at byte
offset 80; consequently, when both counts are readable, the holes check
reports "Holes detected" (fail) iff the fill-holes output contains
strictly more triangles than the input. -/
theorem C9_triangle_count_header (buf : List Nat) :
    (buf.length < 84 → triangleCountFromStl buf = none) ∧
    (84 ≤ buf.length →
      triangleCountFromStl buf = some (readUint32LE buf 80)) ∧
    (∀ i o bi bo : Nat,
      holesCheckVerdict (some i) (some o) bi bo = .fail ↔ i < o) := by
  refine ⟨?_, ?_, ?_⟩
  · intro h; unfold triangleCountFromStl; rw [if_pos h]
  · intro h; unfold triangleCountFromStl; rw [if_neg (not_lt.mpr h)]
  · intro i o bi bo
    show (if (0 : Int) < (o : Int) - (i : Int) then CheckStatus.fail
      else CheckStatus.pass) = .fail ↔ i < o
    by_cases h : (0 : Int) < (o : Int) - (i : Int)
    · rw [if_pos h]
      constructor
      · intro _; omega
      · intro _; rfl
    · rw [if_neg h]
      constructor
      · intro hpf; exact absurd hpf (by simp)
      · intro hio; exact absurd h (by push_neg; omega)

/-- Witness for C9: an 83-byte buffer yields null; an 84-byte buffer with
bytes `[2, 1, 0, 0]` at offset 80 yields its uint32LE; an output with more
triangles than the input makes the holes check fail. -/
theorem C9_triangle_count_header_witness :
    triangleCountFromStl (List.replicate 83 0) = none ∧
    triangleCountFromStl (List.replicate 80 0 ++ [2, 1, 0, 0]) =
      some (readUint32LE (List.replicate 80 0 ++ [2, 1, 0, 0]) 80) ∧
    holesCheckVerdict (some 1) (some 3) 0 0 = .fail :=
  ⟨(C9_triangle_count_header (List.replicate 83 0)).1 (by decide),
   (C9_triangle_count_header (List.replicate 80 0 ++ [2, 1, 0, 0])).2.1 (by decide),
   ((C9_triangle_count_header []).2.2 1 3 0 0).mpr (by decide)⟩

/-! ## Pending-map theorems -/

theorem settleCount_append (l1 l2 : List (Nat × SettleKind)) (i : Nat) :
    settleCount (l1 ++ l2) i = settleCount l1 i + settleCount l2 i := by
  unfold settleCount
  rw [List.filter_append, List.length_append]

theorem settleCount_single (j : Nat) (k : SettleKind) (i : Nat) :
    settleCount [(j, k)] i = if j = i then 1 else 0 := by
  unfold settleCount
  by_cases h : j = i <;> simp [List.filter_cons, h]

theorem settleCount_map_rejected (l : List Nat) (i : Nat) :
    settleCount (l.map (fun j => (j, SettleKind.rejected))) i =
      (l.filter (fun j => j == i)).length := by
  induction l with
  | nil => rfl
  | cons x xs ih =>
      unfold settleCount at *
      rw [List.map_cons, List.filter_cons, List.filter_cons]
      by_cases h : x = i
      · simp [h, ih]
      · simp [h, ih]

theorem nodup_filter_beq_le_one (l : List Nat) (hl : l.Nodup) (i : Nat) :
    (l.filter (fun j => j == i)).length ≤ 1 := by
  induction l with
  | nil => exact Nat.zero_le 1
  | cons x xs ih =>
      rw [List.filter_cons]
      have hx := (List.nodup_cons.mp hl).1
      have hxs := (List.nodup_cons.mp hl).2
      by_cases h : x = i
      · subst h
        have hnil : xs.filter (fun j => j == x) = [] := by
          apply List.filter_eq_nil_iff.mpr
          intro a ha
          simp only [beq_iff_eq]
          intro hax
          exact hx (hax ▸ ha)
        simp [hnil]
      · simp only [beq_iff_eq, h, decide_False, Bool.false_eq_true, if_false]
        exact ih hxs

theorem filter_beq_pos_of_mem (l : List Nat) (i : Nat) (h : i ∈ l) :
    1 ≤ (l.filter (fun j => j == i)).length := by
  have : i ∈ l.filter (fun j => j == i) :=
    List.mem_filter.mpr ⟨h, by simp⟩
  have := List.length_pos.mpr (List.ne_nil_of_mem this)
  omega

theorem filter_beq_nil_of_not_mem (l : List Nat) (i : Nat) (h : i ∉ l) :
    (l.filter (fun j => j == i)).length = 0 := by
  have : l.filter (fun j => j == i) = [] := by
    apply List.filter_eq_nil_iff.mpr
    intro a ha
    simp only [beq_iff_eq]
    intro hai
    exact h (hai ▸ ha)
  simp [this]

theorem stepClient_preserves (s : ClientState) (log : List (Nat × SettleKind))
    (e : ClientEvent) (h : ClientInv s log) :
    ClientInv (stepClient s e).1 (log ++ (stepClient s e).2) := by
  cases e with
  | newRequest wt =>
      simp only [stepClient, List.append_nil]
      refine ⟨?_, ?_, ?_, ?_, ?_, ?_, h.once⟩
      · exact List.nodup_cons.mpr
          ⟨fun hmem => absurd (h.pendingBounded _ hmem) (lt_irrefl _),
           h.pendingNodup⟩
      · cases wt with
        | true =>
            exact List.nodup_cons.mpr
              ⟨fun hmem =>
                absurd (h.pendingBounded _ (h.timersSub _ hmem)) (lt_irrefl _),
               h.timersNodup⟩
        | false => exact h.timersNodup
      · intro i hi
        dsimp only at hi ⊢
        rcases List.mem_cons.mp hi with hEq | hmem
        · omega
        · have := h.pendingBounded i hmem; omega
      · intro i hi
        cases wt with
        | true =>
            rcases List.mem_cons.mp hi with hEq | hmem
            · exact hEq ▸ List.mem_cons_self _ _
            · exact List.mem_cons_of_mem _ (h.timersSub i hmem)
        | false => exact List.mem_cons_of_mem _ (h.timersSub i hi)
      · intro i hi
        rcases List.mem_cons.mp hi with hEq | hmem
        · exact hEq ▸ h.futureFresh _ le_rfl
        · exact h.pendingFresh i hmem
      · intro i hle
        dsimp only at hle
        exact h.futureFresh i (by omega)
  | timerFire i =>
      by_cases hc : s.timers.contains i = true
      · have hiT : i ∈ s.timers := by
          have := hc; simpa using this
        have hiP : i ∈ s.pending := h.timersSub i hiT
        have hiB : i < s.nextId := h.pendingBounded i hiP
        simp only [stepClient, hc, if_true]
        refine ⟨h.pendingNodup.erase i, h.timersNodup.erase i, ?_, ?_, ?_, ?_, ?_⟩
        · intro j hj
          exact h.pendingBounded j (List.mem_of_mem_erase hj)
        · intro j hj
          have hj' := (h.timersNodup.mem_erase_iff).mp hj
          exact (h.pendingNodup.mem_erase_iff).mpr
            ⟨hj'.1, h.timersSub j hj'.2⟩
        · intro j hj
          have hj' := (h.pendingNodup.mem_erase_iff).mp hj
          rw [settleCount_append, settleCount_single]
          have h0 := h.pendingFresh j hj'.2
          have hne : ¬ i = j := fun hEq => hj'.1 hEq.symm
          simp [h0, hne]
        · intro j hle
          dsimp only at hle
          rw [settleCount_append, settleCount_single]
          have h0 := h.futureFresh j hle
          have hne : ¬ i = j := by omega
          simp [h0, hne]
        · intro j
          rw [settleCount_append, settleCount_single]
          by_cases hEq : i = j
          · subst hEq
            have h0 := h.pendingFresh i hiP
            simp [h0]
          · have := h.once j
            simp [hEq]
            omega
      · simp only [stepClient, hc]
        simpa using h
  | workerMessage i ok =>
      by_cases hc : s.pending.contains i = true
      · have hiP : i ∈ s.pending := by
          have := hc; simpa using this
        simp only [stepClient, hc, if_true]
        refine ⟨h.pendingNodup.erase i, h.timersNodup.erase i, ?_, ?_, ?_, ?_, ?_⟩
        · intro j hj
          exact h.pendingBounded j (List.mem_of_mem_erase hj)
        · intro j hj
          have hj' := (h.timersNodup.mem_erase_iff).mp hj
          exact (h.pendingNodup.mem_erase_iff).mpr
            ⟨hj'.1, h.timersSub j hj'.2⟩
        · intro j hj
          have hj' := (h.pendingNodup.mem_erase_iff).mp hj
          rw [settleCount_append, settleCount_single]
          have h0 := h.pendingFresh j hj'.2
          have hne : ¬ i = j := fun hEq => hj'.1 hEq.symm
          simp [h0, hne]
        · intro j hle
          dsimp only at hle
          rw [settleCount_append, settleCount_single]
          have h0 := h.futureFresh j hle
          have hiB : i < s.nextId := h.pendingBounded i hiP
          have hne : ¬ i = j := by omega
          simp [h0, hne]
        · intro j
          rw [settleCount_append, settleCount_single]
          by_cases hEq : i = j
          · subst hEq
            have h0 := h.pendingFresh i hiP
            simp [h0]
          · have := h.once j
            simp [hEq]
            omega
      · simp only [stepClient, hc]
        simpa using h
  | reset =>
      simp only [stepClient]
      refine ⟨List.nodup_nil, List.nodup_nil, ?_, ?_, ?_, ?_, ?_⟩
      · intro i hi; cases hi
      · intro i hi; cases hi
      · intro i hi; cases hi
      · intro j hle
        dsimp only at hle
        rw [settleCount_append, settleCount_map_rejected]
        have h0 := h.futureFresh j hle
        have hnm : j ∉ s.pending := fun hmem => by
          have := h.pendingBounded j hmem; omega
        rw [h0, filter_beq_nil_of_not_mem _ _ hnm]
      · intro j
        rw [settleCount_append, settleCount_map_rejected]
        by_cases hmem : j ∈ s.pending
        · have h0 := h.pendingFresh j hmem
          have h1 := nodup_filter_beq_le_one s.pending h.pendingNodup j
          omega
        · have h0 := filter_beq_nil_of_not_mem s.pending j hmem
          have h1 := h.once j
          omega

theorem runClientAux_preserves :
    ∀ (events : List ClientEvent) (s : ClientState)
      (log : List (Nat × SettleKind)),
      ClientInv s log →
      ClientInv (runClientAux s log events).1 (runClientAux s log events).2 := by
  intro events
  induction events with
  | nil => intro s log h; exact h
  | cons e es ih =>
      intro s log h
      exact ih _ _ (stepClient_preserves s log e h)

theorem initialClientInv : ClientInv initialClientState [] := by
  refine ⟨List.nodup_nil, List.nodup_nil, ?_, ?_, ?_, ?_, ?_⟩
  · intro i hi; cases hi
  · intro i hi; cases hi
  · intro i hi; cases hi
  · intro i _; rfl
  · intro i; exact Nat.zero_le 1

/-- Claim C10: every client request settles at most once — along any event
sequence each id is settled at most once and the pending map never holds
two entries for one id; a timeout removes the pending entry and rejects
the promise, and a worker message for an id no longer in the pending map
is ignored, so a single request can never both reject on timeout and later
resolve with a stale result. -/
theorem C10_requests_settle_at_most_once (events : List ClientEvent) :
    (∀ i, settleCount (runClient events).2 i ≤ 1) ∧
    (runClient events).1.pending.Nodup ∧
    (∀ (s : ClientState) (i : Nat) (ok : Bool),
      s.pending.contains i = false →
        stepClient s (.workerMessage i ok) = (s, [])) ∧
    (∀ (s : ClientState) (i : Nat), s.timers.contains i = true →
      stepClient s (.timerFire i) =
        (⟨s.nextId, s.pending.erase i, s.timers.erase i⟩, [(i, .rejected)])) := by
  have h := runClientAux_preserves events initialClientState [] initialClientInv
  refine ⟨h.once, h.pendingNodup, ?_, ?_⟩
  · intro s i ok hc
    have hm : i ∉ s.pending := by simpa using hc
    simp [stepClient, hm]
  · intro s i hc
    have hm : i ∈ s.timers := by simpa using hc
    simp [stepClient, hm]

/-- Witness for C10: in the trace "request with timeout, timer fires,
stale worker result arrives", request 1 settles exactly once overall, and
a worker message for an id absent from the pending map is ignored. -/
theorem C10_requests_settle_at_most_once_witness :
    settleCount
      (runClient [.newRequest true, .timerFire 1, .workerMessage 1 true]).2 1 ≤ 1 ∧
    stepClient ⟨2, [], []⟩ (.workerMessage 1 true) = (⟨2, [], []⟩, []) := by
  have h := C10_requests_settle_at_most_once
    [.newRequest true, .timerFire 1, .workerMessage 1 true]
  exact ⟨h.1 1, h.2.2.1 ⟨2, [], []⟩ 1 true (by decide)⟩

end Meshlib
